import Mathlib

/-!
Verification of the `newpass` password and passphrase generator
(`newpass.py`) against its natural-language specification.

Modelling conventions.
The Python random source is embedded as an infinite stream `s : Nat → Nat`
of raw draws together with an explicit cursor: the call
`random.randrange(lo, hi)` consuming the draw at position `i` is modelled
as `randrange lo hi (s i)`, which always lands in `[lo, hi)`; the single
`random.random() < 0.5` coin in `create_password` is modelled as the
parity of the draw it consumes.  Python strings built character by
character are modelled as `List Nat` of ASCII codes; passphrase words and
keys are Lean `String`s.  The unbounded `while` loops are modelled with an
explicit fuel argument: for `create_password` fuel `num` provably
suffices (each iteration appends at least one character), so the fuelled
function agrees with the Python loop on every execution; for
`create_dice_passphrase` the result `Except.ok none` means the loop is
still running after `fuel` rejected candidates.  The word list file is
modelled as `Option (String → Option String)`: `none` stands for a
missing/unreadable/malformed `WordList.json` (the bare `except` around
`open`/`json.load` turns any of those into `FileNotFoundError`), and an
inner `none` stands for a key absent from the loaded dictionary (a Python
`KeyError`).
-/

/-- The exception classes of `newpass.py`: `NotIntegerError`,
`NumberTooLowError`, `NumberTooHighError`, `FileNotFoundError`, plus
`keyError` for Python's built-in `KeyError` raised by a failed
dictionary lookup (caught only by the CLI's bare `except`). -/
inductive Err where
  | notInteger
  | numberTooLow
  | numberTooHigh
  | fileNotFound
  | keyError
  deriving DecidableEq

/-- A Python value passed as the `num` argument: either an `int` or a
non-integer (represented by a string, as in the test `'Dave'`); the
`isinstance(num, int)` check distinguishes the two. -/
inductive PyVal where
  | int : Int → PyVal
  | str : String → PyVal

/-- `random.randrange(lo, hi)` applied to raw draw `v`: a value in
`[lo, hi)` whenever `lo < hi`. -/
def randrange (lo hi v : Nat) : Nat :=
  lo + v % (hi - lo)

/-- The trailing letter-or-digit choice of the `create_password` loop
(`newpass.py` lines 99-104): lowercase for `x < 47`, numeral for
`47 ≤ x < 72`, uppercase for `x ≥ 72`.  `v` is the raw draw consumed by
the inner `randrange`. -/
def pickAlnum (x v : Nat) : Nat :=
  if x < 47 then randrange 97 123 v
  else if x < 72 then randrange 48 58 v
  else randrange 65 91 v

/-- One iteration of the `while` body of `create_password`
(`newpass.py` lines 75-104), translated branch by branch: draw `x` at
cursor `i`; if `special` and room remains, the four five-wide bands each
append a special character (draw at `i+1`), redraw `x` (draw at `i+2`)
and finish with the letter-or-digit append (draw at `i+3`); otherwise
the letter-or-digit append uses the original `x` (draw at `i+1`).
Returns the extended password and the new cursor. -/
def passIter (special : Bool) (num : Nat) (s : Nat → Nat) (pw : List Nat) (i : Nat) :
    List Nat × Nat :=
  if special = true ∧ pw.length < num - 1 then
    if 80 ≤ randrange 0 100 (s i) ∧ randrange 0 100 (s i) < 85 then
      (pw ++ [randrange 32 48 (s (i + 1))] ++
        [pickAlnum (randrange 0 100 (s (i + 2))) (s (i + 3))], i + 4)
    else if 85 ≤ randrange 0 100 (s i) ∧ randrange 0 100 (s i) < 90 then
      (pw ++ [randrange 58 65 (s (i + 1))] ++
        [pickAlnum (randrange 0 100 (s (i + 2))) (s (i + 3))], i + 4)
    else if 90 ≤ randrange 0 100 (s i) ∧ randrange 0 100 (s i) < 95 then
      (pw ++ [randrange 91 97 (s (i + 1))] ++
        [pickAlnum (randrange 0 100 (s (i + 2))) (s (i + 3))], i + 4)
    else if 95 ≤ randrange 0 100 (s i) ∧ randrange 0 100 (s i) < 100 then
      (pw ++ [randrange 123 127 (s (i + 1))] ++
        [pickAlnum (randrange 0 100 (s (i + 2))) (s (i + 3))], i + 4)
    else
      (pw ++ [pickAlnum (randrange 0 100 (s i)) (s (i + 1))], i + 2)
  else
    (pw ++ [pickAlnum (randrange 0 100 (s i)) (s (i + 1))], i + 2)

/-- The `while len(password) < num` loop of `create_password`, with
explicit fuel.  Fuel `num` provably suffices, so the fuelled loop agrees
with the Python loop on every execution. -/
def passLoop (special : Bool) (num : Nat) (s : Nat → Nat) : Nat → List Nat → Nat → List Nat
  | 0, pw, _ => pw
  | fuel + 1, pw, i =>
    if pw.length < num then
      passLoop special num s fuel (passIter special num s pw i).1 (passIter special num s pw i).2
    else pw

/-- The seeding step of `create_password` (`newpass.py` lines 70-73):
lead with a lowercase letter on heads (`random.random() < 0.5`, modelled
as even parity of the draw at position 0), otherwise with an uppercase
letter; the character draw is at position 1. -/
def seedChar (s : Nat → Nat) : List Nat :=
  if s 0 % 2 = 0 then [randrange 97 123 (s 1)] else [randrange 65 91 (s 1)]

/-- `create_password(num, special)` (`newpass.py` lines 29-106):
validation (`isinstance`, `< 7`, `> 64`), then the seed character, then
the character loop starting at cursor 2. -/
def create_password (v : PyVal) (special : Bool) (s : Nat → Nat) : Except Err (List Nat) :=
  match v with
  | .str _ => .error .notInteger
  | .int n =>
    if n < 7 then .error .numberTooLow
    else if 64 < n then .error .numberTooHigh
    else .ok (passLoop special n.toNat s n.toNat (seedChar s) 2)

/-- ASCII code of a letter or digit: the three non-special ranges of the
docstring (`48-57`, `65-90`, `97-122`). -/
def isAlnum (c : Nat) : Prop :=
  (48 ≤ c ∧ c ≤ 57) ∨ (65 ≤ c ∧ c ≤ 90) ∨ (97 ≤ c ∧ c ≤ 122)

/-- ASCII code of a special character: the four ranges of the docstring
and of the glossary (`32-47`, `58-64`, `91-96`, `123-126`). -/
def isSpecial (c : Nat) : Prop :=
  (32 ≤ c ∧ c ≤ 47) ∨ (58 ≤ c ∧ c ≤ 64) ∨ (91 ≤ c ∧ c ≤ 96) ∨ (123 ≤ c ∧ c ≤ 126)

instance (c : Nat) : Decidable (isAlnum c) := by
  unfold isAlnum
  infer_instance

instance (c : Nat) : Decidable (isSpecial c) := by
  unfold isSpecial
  infer_instance

/-- The all-zero random stream, used to evaluate the model on concrete
inputs. -/
def szero : Nat → Nat := fun _ => 0

/-- The spec's letter-or-digit classification (§4.1 step 2c), transcribed
from the spec's words for comparison with `pickAlnum`. -/
def spec_class (x v : Nat) : Nat :=
  if x < 47 then randrange 97 123 v
  else if x < 72 then randrange 48 58 v
  else randrange 65 91 v

/-- One loop iteration as the spec words it (§4.1 step 2): draw `x`;
when `include_special` and the current length is below `length - 1`,
`x` in `[0,80)` falls through with the original `x` and the four
five-wide bands `[80,85)`, `[85,90)`, `[90,95)`, `[95,100)` append a
special character from `32-47`, `58-64`, `91-96`, `123-126` respectively
and redraw `x`; then the (possibly redrawn) `x` picks the letter or
digit. -/
def spec_iter (inc : Bool) (len : Nat) (s : Nat → Nat) (pw : List Nat) (i : Nat) :
    List Nat × Nat :=
  if inc = true ∧ pw.length < len - 1 then
    if randrange 0 100 (s i) < 80 then
      (pw ++ [spec_class (randrange 0 100 (s i)) (s (i + 1))], i + 2)
    else if randrange 0 100 (s i) < 85 then
      (pw ++ [randrange 32 48 (s (i + 1))] ++
        [spec_class (randrange 0 100 (s (i + 2))) (s (i + 3))], i + 4)
    else if randrange 0 100 (s i) < 90 then
      (pw ++ [randrange 58 65 (s (i + 1))] ++
        [spec_class (randrange 0 100 (s (i + 2))) (s (i + 3))], i + 4)
    else if randrange 0 100 (s i) < 95 then
      (pw ++ [randrange 91 97 (s (i + 1))] ++
        [spec_class (randrange 0 100 (s (i + 2))) (s (i + 3))], i + 4)
    else
      (pw ++ [randrange 123 127 (s (i + 1))] ++
        [spec_class (randrange 0 100 (s (i + 2))) (s (i + 3))], i + 4)
  else
    (pw ++ [spec_class (randrange 0 100 (s i)) (s (i + 1))], i + 2)

/-- The spec's loop (§4.1 step 2), same fuelled shape as `passLoop` but
built on `spec_iter`. -/
def spec_loop (inc : Bool) (len : Nat) (s : Nat → Nat) : Nat → List Nat → Nat → List Nat
  | 0, pw, _ => pw
  | fuel + 1, pw, i =>
    if pw.length < len then
      spec_loop inc len s fuel (spec_iter inc len s pw i).1 (spec_iter inc len s pw i).2
    else pw

/-- The spec's seeding step (§4.1 step 1): one character chosen with
equal probability from the lowercase and the uppercase letters, the coin
modelled as in `seedChar`. -/
def spec_seed (s : Nat → Nat) : List Nat :=
  if s 0 % 2 = 0 then [randrange 97 123 (s 1)] else [randrange 65 91 (s 1)]

/-- `generate_password` as the spec words it (§4.1): validation, seed,
loop. -/
def spec_create_password (v : PyVal) (inc : Bool) (s : Nat → Nat) : Except Err (List Nat) :=
  match v with
  | .str _ => .error .notInteger
  | .int n =>
    if n < 7 then .error .numberTooLow
    else if 64 < n then .error .numberTooHigh
    else .ok (spec_loop inc n.toNat s n.toNat (spec_seed s) 2)

/-- `str(random.randrange(1, 7))` as a character: one simulated die
roll, a digit `1`-`6` (ASCII `49`-`54`). -/
def diceDigit (v : Nat) : Char :=
  Char.ofNat (48 + randrange 1 7 v)

/-- The inner `for die in range(5)` loop of `create_dice_passphrase`
(`newpass.py` lines 164-166): a 5-character key built from five die
rolls at cursor positions `i` to `i + 4`. -/
def rollKey (s : Nat → Nat) (i : Nat) : String :=
  String.mk [diceDigit (s i), diceDigit (s (i + 1)), diceDigit (s (i + 2)),
    diceDigit (s (i + 3)), diceDigit (s (i + 4))]

/-- The `for roll in range(num)` loop of `create_dice_passphrase`
(`newpass.py` lines 163-167): build `k` words in draw order, each
looked up by a fresh 5-roll key; a missing key (Python `KeyError`)
aborts with `none`. -/
def rollWords (dict : String → Option String) (s : Nat → Nat) : Nat → Nat → Option (List String)
  | _, 0 => some []
  | i, k + 1 =>
    match dict (rollKey s i), rollWords dict s (i + 5) k with
    | some w, some ws => some (w :: ws)
    | _, _ => none

/-- The `while True` retry loop of `create_dice_passphrase`
(`newpass.py` lines 157-170), with explicit fuel: `.ok none` means the
loop is still running after `fuel` rejected candidates (the code itself
imposes no cap); `.ok (some phrase)` is the accepted candidate;
`.error .keyError` is a failed dictionary lookup. -/
def diceLoop (dict : String → Option String) (num : Nat) (s : Nat → Nat) :
    Nat → Nat → Except Err (Option String)
  | _, 0 => .ok none
  | i, fuel + 1 =>
    match rollWords dict s i num with
    | none => .error .keyError
    | some ws =>
      if 20 ≤ (String.intercalate " " ws).length ∧ (String.intercalate " " ws).length ≤ 50 then
        .ok (some (String.intercalate " " ws))
      else diceLoop dict num s (i + 5 * num) fuel

/-- `create_dice_passphrase(num)` (`newpass.py` lines 111-172):
validation (`isinstance`, `< 4`, `> 12`), then the word-list load
(`none` wordfile stands for a missing, unreadable or malformed
`WordList.json`, all mapped to `FileNotFoundError` by the bare
`except`), then the retry loop starting at cursor 0. -/
def create_dice_passphrase (v : PyVal) (wordfile : Option (String → Option String))
    (s : Nat → Nat) (fuel : Nat) : Except Err (Option String) :=
  match v with
  | .str _ => .error .notInteger
  | .int n =>
    if n < 4 then .error .numberTooLow
    else if 12 < n then .error .numberTooHigh
    else
      match wordfile with
      | none => .error .fileNotFound
      | some dict => diceLoop dict n.toNat s 0 fuel

/-- A well-formed Diceware key: 5 characters, each a digit `1`-`6`. -/
def isDiceKey (k : String) : Prop :=
  k.length = 5 ∧ ∀ c ∈ k.data, 49 ≤ c.toNat ∧ c.toNat ≤ 54

/-- A 60-character word, for exercising the retry loop on a word list
whose candidates can never land in `[20,50]`. -/
def longWord : String := String.mk (List.replicate 60 'a')

/-- A word list in which every key maps to `longWord`: every candidate
phrase is longer than 50 characters, so the retry loop never accepts. -/
def badDict : String → Option String := fun _ => some longWord

/-- A word list in which every key maps to a 5-character word, for
concrete evaluation of successful passphrase generation. -/
def appleDict : String → Option String := fun _ => some "apple"

/-- The parsed command-line arguments: `--number` (absent or an
integer, since `argparse` enforces `type=int`), `--special`, `--dice`. -/
structure Args where
  number : Option Int
  special : Bool
  dice : Bool

/-- Python truthiness of `args.number` in `if args.number:`: falsy when
absent (`None`) and when equal to `0`. -/
def truthy : Option Int → Bool
  | none => false
  | some n => decide (n ≠ 0)

/-- The user-facing messages printed by `main` (`newpass.py` lines
211-254), abbreviated: message formatting is CLI glue outside the spec's
scope, only which message is selected matters here. -/
def msgDiceNotInteger : String := "passphrase number must be an integer"

def msgDiceTooLow : String := "this program requires that number be at least 4"

def msgDiceTooHigh : String := "this script requires that number be no more than 12"

def msgFileNotFound : String := "the WordList file cannot be found"

def msgDiceFailed : String := "create dice passphrase failed for some reason"

def msgPassNotInteger : String := "password number must be an integer"

def msgPassTooLow : String := "this script requires that number be at least 7"

def msgPassTooHigh : String := "this script requires that number be no more than 64"

def msgPassFailed : String := "create password failed for some reason"

/-- Render a generated password (a list of ASCII codes) as the string
printed by the CLI. -/
def codesToString (pw : List Nat) : String :=
  String.mk (pw.map Char.ofNat)

/-- The CLI dispatcher `main` (`newpass.py` lines 177-254) after
argument parsing, returning the printed text and the process exit code.
`main` never calls `sys.exit` and catches every exception (each named
class plus a bare `except`), so whenever the process terminates it
prints one message and exits with status 0; the result `none` models the
only non-terminating path, the passphrase retry loop still running after
`fuel` candidates. -/
def mainCli (args : Args) (wordfile : Option (String → Option String)) (s : Nat → Nat)
    (fuel : Nat) : Option (String × Nat) :=
  if args.dice then
    match (if truthy args.number then
            create_dice_passphrase (.int (args.number.getD 0)) wordfile s fuel
          else create_dice_passphrase (.int 8) wordfile s fuel) with
    | .ok none => none
    | .ok (some phrase) => some (phrase, 0)
    | .error .notInteger => some (msgDiceNotInteger, 0)
    | .error .numberTooLow => some (msgDiceTooLow, 0)
    | .error .numberTooHigh => some (msgDiceTooHigh, 0)
    | .error .fileNotFound => some (msgFileNotFound, 0)
    | .error .keyError => some (msgDiceFailed, 0)
  else
    match (if truthy args.number then
            create_password (.int (args.number.getD 0)) args.special s
          else create_password (.int 10) args.special s) with
    | .ok pw => some (codesToString pw, 0)
    | .error .notInteger => some (msgPassNotInteger, 0)
    | .error .numberTooLow => some (msgPassTooLow, 0)
    | .error .numberTooHigh => some (msgPassTooHigh, 0)
    | .error .fileNotFound => some (msgPassFailed, 0)
    | .error .keyError => some (msgPassFailed, 0)

theorem randrange_mem (lo hi v : Nat) (h : lo < hi) :
    lo ≤ randrange lo hi v ∧ randrange lo hi v < hi := by
  unfold randrange
  have hm : v % (hi - lo) < hi - lo := Nat.mod_lt _ (by omega)
  omega

theorem pickAlnum_alnum (x v : Nat) : isAlnum (pickAlnum x v) := by
  unfold pickAlnum isAlnum
  split_ifs
  · have h := randrange_mem 97 123 v (by omega)
    omega
  · have h := randrange_mem 48 58 v (by omega)
    omega
  · have h := randrange_mem 65 91 v (by omega)
    omega

theorem alnum_not_special (c : Nat) (h : isAlnum c) : ¬ isSpecial c := by
  unfold isAlnum at h
  unfold isSpecial
  omega

/-- Shape of one loop iteration: the result is the old password, possibly
extended by one special character (only when `special` is set and at
least two characters of room remain), always followed by exactly one
letter or digit. -/
theorem passIter_shape (special : Bool) (num : Nat) (s : Nat → Nat) (pw : List Nat) (i : Nat) :
    ∃ q c j, passIter special num s pw i = (q ++ [c], j) ∧ isAlnum c ∧
      (q = pw ∨ (special = true ∧ pw.length + 2 ≤ num ∧ ∃ d, isSpecial d ∧ q = pw ++ [d])) := by
  unfold passIter
  split_ifs with h1 h2 h3 h4 h5
  · refine ⟨_, _, _, rfl, pickAlnum_alnum _ _, Or.inr ⟨h1.1, by omega, _, ?_, rfl⟩⟩
    have h := randrange_mem 32 48 (s (i + 1)) (by omega)
    unfold isSpecial
    omega
  · refine ⟨_, _, _, rfl, pickAlnum_alnum _ _, Or.inr ⟨h1.1, by omega, _, ?_, rfl⟩⟩
    have h := randrange_mem 58 65 (s (i + 1)) (by omega)
    unfold isSpecial
    omega
  · refine ⟨_, _, _, rfl, pickAlnum_alnum _ _, Or.inr ⟨h1.1, by omega, _, ?_, rfl⟩⟩
    have h := randrange_mem 91 97 (s (i + 1)) (by omega)
    unfold isSpecial
    omega
  · refine ⟨_, _, _, rfl, pickAlnum_alnum _ _, Or.inr ⟨h1.1, by omega, _, ?_, rfl⟩⟩
    have h := randrange_mem 123 127 (s (i + 1)) (by omega)
    unfold isSpecial
    omega
  · exact ⟨pw, _, _, rfl, pickAlnum_alnum _ _, Or.inl rfl⟩
  · exact ⟨pw, _, _, rfl, pickAlnum_alnum _ _, Or.inl rfl⟩

theorem passLoop_of_done (special : Bool) (num : Nat) (s : Nat → Nat) (fuel : Nat)
    (pw : List Nat) (i : Nat) (h : ¬ pw.length < num) :
    passLoop special num s fuel pw i = pw := by
  cases fuel with
  | zero => rfl
  | succ n => simp [passLoop, h]

theorem passLoop_length (special : Bool) (num : Nat) (s : Nat → Nat) :
    ∀ fuel pw i, pw.length ≤ num → num ≤ pw.length + fuel →
      (passLoop special num s fuel pw i).length = num := by
  intro fuel
  induction fuel with
  | zero =>
    intro pw i h1 h2
    simp only [passLoop]
    omega
  | succ n ih =>
    intro pw i h1 h2
    by_cases h : pw.length < num
    · simp only [passLoop, if_pos h]
      obtain ⟨q, c, j, he, _, hq⟩ := passIter_shape special num s pw i
      rw [he]
      apply ih
      · rcases hq with rfl | ⟨_, hlen, d, _, rfl⟩ <;> simp <;> omega
      · rcases hq with rfl | ⟨_, hlen, d, _, rfl⟩ <;> simp <;> omega
    · rw [passLoop_of_done special num s _ pw i h]
      omega

theorem passLoop_alnum (num : Nat) (s : Nat → Nat) :
    ∀ fuel pw i, (∀ c ∈ pw, isAlnum c) →
      ∀ c ∈ passLoop false num s fuel pw i, isAlnum c := by
  intro fuel
  induction fuel with
  | zero => intro pw i hpw; simpa [passLoop] using hpw
  | succ n ih =>
    intro pw i hpw
    by_cases h : pw.length < num
    · simp only [passLoop, if_pos h]
      obtain ⟨q, c, j, he, hc, hq⟩ := passIter_shape false num s pw i
      rw [he]
      apply ih
      rcases hq with rfl | ⟨hfalse, _⟩
      · intro x hx
        rcases List.mem_append.mp hx with hx | hx
        · exact hpw x hx
        · rcases List.mem_singleton.mp hx with rfl
          exact hc
      · exact absurd hfalse (by simp)
    · rw [passLoop_of_done false num s _ pw i h]
      exact hpw

theorem passLoop_last (special : Bool) (num : Nat) (s : Nat → Nat) :
    ∀ fuel pw i, pw.length < num → num ≤ pw.length + fuel →
      ∃ q c, passLoop special num s fuel pw i = q ++ [c] ∧ isAlnum c := by
  intro fuel
  induction fuel with
  | zero =>
    intro pw i h1 h2
    omega
  | succ n ih =>
    intro pw i h1 h2
    simp only [passLoop, if_pos h1]
    obtain ⟨q, c, j, he, hc, hq⟩ := passIter_shape special num s pw i
    rw [he]
    have hqlen : (q ++ [c]).length ≤ num := by
      rcases hq with rfl | ⟨_, hlen, d, _, rfl⟩ <;> simp <;> omega
    by_cases h : (q ++ [c]).length < num
    · apply ih _ j h
      rcases hq with rfl | ⟨_, hlen, d, _, rfl⟩ <;> simp <;> omega
    · rw [passLoop_of_done special num s n _ j h]
      exact ⟨q, c, rfl, hc⟩

theorem seedChar_length (s : Nat → Nat) : (seedChar s).length = 1 := by
  unfold seedChar
  split_ifs <;> rfl

theorem seedChar_alnum (s : Nat → Nat) : ∀ c ∈ seedChar s, isAlnum c := by
  unfold seedChar
  split_ifs
  · intro c hc
    rcases List.mem_singleton.mp hc with rfl
    have h := randrange_mem 97 123 (s 1) (by omega)
    unfold isAlnum
    omega
  · intro c hc
    rcases List.mem_singleton.mp hc with rfl
    have h := randrange_mem 65 91 (s 1) (by omega)
    unfold isAlnum
    omega

/-- Helper: on every valid length, `create_password` succeeds and the
result has exactly the requested length. -/
theorem cp_ok_length (n : Int) (special : Bool) (s : Nat → Nat)
    (h7 : 7 ≤ n) (h64 : n ≤ 64) :
    ∃ pw, create_password (.int n) special s = .ok pw ∧ pw.length = n.toNat := by
  simp only [create_password]
  rw [if_neg (by omega), if_neg (by omega)]
  refine ⟨_, rfl, ?_⟩
  apply passLoop_length
  · rw [seedChar_length]; omega
  · rw [seedChar_length]; omega

/-- Helper: on every valid length, every character of a
special-character-free password is a letter or digit. -/
theorem cp_false_alnum (n : Int) (s : Nat → Nat) (h7 : 7 ≤ n) (h64 : n ≤ 64)
    (pw : List Nat) (hok : create_password (.int n) false s = .ok pw) :
    ∀ c ∈ pw, isAlnum c := by
  simp only [create_password] at hok
  rw [if_neg (by omega), if_neg (by omega)] at hok
  have hpw : pw = passLoop false n.toNat s n.toNat (seedChar s) 2 :=
    (Except.ok.injEq _ _ ▸ hok).symm
  rw [hpw]
  exact passLoop_alnum n.toNat s n.toNat (seedChar s) 2 (seedChar_alnum s)

/-- Claim C1: for every integer `n` in `[7,64]` and every boolean
`include_special`, `create_password` returns a string of length exactly
`n` — the iteration appending a special plus an alphanumeric character
never overshoots the target. -/
theorem C1_create_password_exact_length (n : Int) (special : Bool) (s : Nat → Nat)
    (h7 : 7 ≤ n) (h64 : n ≤ 64) :
    ∃ pw, create_password (.int n) special s = .ok pw ∧ pw.length = n.toNat :=
  cp_ok_length n special s h7 h64

/-- Witness for C1 at `n = 10`. -/
theorem C1_witness :
    ∃ pw, create_password (.int 10) true szero = .ok pw ∧ pw.length = (10 : Int).toNat :=
  C1_create_password_exact_length 10 true szero (by decide) (by decide)

/-- Claim C2: for every integer `n` in `[7,64]`, `create_password` with
`include_special = false` returns only ASCII letters and digits — no
character from the special ranges `32-47`, `58-64`, `91-96`, `123-126`
appears. -/
theorem C2_no_special_when_disabled (n : Int) (s : Nat → Nat) (h7 : 7 ≤ n) (h64 : n ≤ 64)
    (pw : List Nat) (hok : create_password (.int n) false s = .ok pw) :
    ∀ c ∈ pw, isAlnum c ∧ ¬ isSpecial c := by
  intro c hc
  have h := cp_false_alnum n s h7 h64 pw hok c hc
  exact ⟨h, alnum_not_special c h⟩

/-- Witness for C2 at `n = 7` on the all-zero stream: the character
`97` of the concrete result is a letter and not special. -/
theorem C2_witness : isAlnum 97 ∧ ¬ isSpecial 97 :=
  C2_no_special_when_disabled 7 szero (by decide) (by decide)
    [97, 97, 97, 97, 97, 97, 97] (by rfl) 97 (by decide)

/-- Helper: on every valid length, the password ends in a letter or
digit. -/
theorem cp_last_alnum (n : Int) (special : Bool) (s : Nat → Nat)
    (h7 : 7 ≤ n) (h64 : n ≤ 64) (pw : List Nat)
    (hok : create_password (.int n) special s = .ok pw) :
    ∃ c, pw.getLast? = some c ∧ isAlnum c := by
  simp only [create_password] at hok
  rw [if_neg (by omega), if_neg (by omega)] at hok
  have hpw : pw = passLoop special n.toNat s n.toNat (seedChar s) 2 :=
    (Except.ok.injEq _ _ ▸ hok).symm
  obtain ⟨q, c, he, hc⟩ := passLoop_last special n.toNat s n.toNat (seedChar s) 2
    (by rw [seedChar_length]; omega) (by rw [seedChar_length]; omega)
  refine ⟨c, ?_, hc⟩
  rw [hpw, he]
  exact List.getLast?_concat q

/-- Claim C8: for every valid `n` in `[7,64]`, even with
`include_special = true`, the final character of the password is never a
special character — each loop iteration ends by appending a letter or
digit and the special branch only fires below length `n - 1`. -/
theorem C8_last_char_not_special (n : Int) (special : Bool) (s : Nat → Nat)
    (h7 : 7 ≤ n) (h64 : n ≤ 64) (pw : List Nat)
    (hok : create_password (.int n) special s = .ok pw) :
    ∃ c, pw.getLast? = some c ∧ isAlnum c ∧ ¬ isSpecial c := by
  obtain ⟨c, hlast, hc⟩ := cp_last_alnum n special s h7 h64 pw hok
  exact ⟨c, hlast, hc, alnum_not_special c hc⟩

/-- Witness for C8 at `n = 7` with specials enabled, on the all-zero
stream. -/
theorem C8_witness :
    ∃ c, [97, 97, 97, 97, 97, 97, 97].getLast? = some c ∧ isAlnum c ∧ ¬ isSpecial c :=
  C8_last_char_not_special 7 true szero (by decide) (by decide) _ (by rfl)

theorem spec_class_eq : spec_class = pickAlnum := rfl

theorem spec_iter_eq (inc : Bool) (len : Nat) (s : Nat → Nat) (pw : List Nat) (i : Nat) :
    spec_iter inc len s pw i = passIter inc len s pw i := by
  have hx := (randrange_mem 0 100 (s i) (by omega)).2
  unfold spec_iter passIter
  rw [spec_class_eq]
  split_ifs <;> first | rfl | (exfalso; omega)

theorem spec_loop_eq (inc : Bool) (len : Nat) (s : Nat → Nat) :
    ∀ fuel pw i, spec_loop inc len s fuel pw i = passLoop inc len s fuel pw i := by
  intro fuel
  induction fuel with
  | zero => intro pw i; rfl
  | succ n ih =>
    intro pw i
    simp only [spec_loop, passLoop, spec_iter_eq]
    by_cases h : pw.length < len
    · rw [if_pos h, if_pos h, ih]
    · rw [if_neg h, if_neg h]

/-- Claim C3: `create_password` follows exactly the specified weighting
algorithm — the seed character is a lowercase or uppercase letter chosen
by a fair coin, each later iteration draws `x` uniform in `[0,100)`,
the four five-wide bands `[80,85)`, `[85,90)`, `[90,95)`, `[95,100)`
append a special character from `32-47`, `58-64`, `91-96`, `123-126`
respectively and redraw `x` (only when `include_special` and length is
below `length - 1`, `x` in `[0,80)` falling through with the original
`x`), and the (possibly redrawn) `x` appends a lowercase letter when
`x < 47`, a numeral when `47 ≤ x < 72` and an uppercase letter when
`x ≥ 72`: the code-derived function coincides with the function
transcribed from the spec's wording on every input and random stream. -/
theorem C3_matches_spec_algorithm (v : PyVal) (inc : Bool) (s : Nat → Nat) :
    create_password v inc s = spec_create_password v inc s := by
  cases v with
  | str t => rfl
  | int n =>
    simp only [create_password, spec_create_password]
    split_ifs with h1 h2
    · rfl
    · rfl
    · rw [spec_loop_eq]
      rfl

theorem diceDigit_mem (v : Nat) : 49 ≤ (diceDigit v).toNat ∧ (diceDigit v).toNat ≤ 54 := by
  have h76 : (7 : Nat) - 1 = 6 := rfl
  have h6 : v % 6 = 0 ∨ v % 6 = 1 ∨ v % 6 = 2 ∨ v % 6 = 3 ∨ v % 6 = 4 ∨ v % 6 = 5 := by omega
  rcases h6 with h | h | h | h | h | h <;>
    simp only [diceDigit, randrange, h76, h] <;> decide

theorem rollKey_isDiceKey (s : Nat → Nat) (i : Nat) : isDiceKey (rollKey s i) := by
  refine ⟨rfl, ?_⟩
  intro c hc
  have hd : (rollKey s i).data = [diceDigit (s i), diceDigit (s (i + 1)), diceDigit (s (i + 2)),
      diceDigit (s (i + 3)), diceDigit (s (i + 4))] := rfl
  rw [hd] at hc
  simp only [List.mem_cons, List.not_mem_nil, or_false] at hc
  rcases hc with rfl | rfl | rfl | rfl | rfl <;> exact diceDigit_mem _

theorem rollWords_some (dict : String → Option String) (s : Nat → Nat) :
    ∀ k i ws, rollWords dict s i k = some ws →
      ws.length = k ∧ ∀ w ∈ ws, ∃ key, isDiceKey key ∧ dict key = some w := by
  intro k
  induction k with
  | zero =>
    intro i ws h
    have h2 : ([] : List String) = ws := by simpa [rollWords] using h
    subst h2
    exact ⟨rfl, by simp⟩
  | succ n ih =>
    intro i ws h
    cases hd : dict (rollKey s i) with
    | none =>
      simp only [rollWords, hd] at h
      exact Option.noConfusion h
    | some w =>
      cases hr : rollWords dict s (i + 5) n with
      | none =>
        simp only [rollWords, hd, hr] at h
        exact Option.noConfusion h
      | some ws2 =>
        simp only [rollWords, hd, hr, Option.some.injEq] at h
        subst h
        obtain ⟨hlen, hmem⟩ := ih (i + 5) ws2 hr
        refine ⟨by simp [hlen], ?_⟩
        intro x hx
        rcases List.mem_cons.mp hx with rfl | hx
        · exact ⟨rollKey s i, rollKey_isDiceKey s i, hd⟩
        · exact hmem x hx

theorem diceLoop_ok_some (dict : String → Option String) (num : Nat) (s : Nat → Nat) :
    ∀ fuel i phrase, diceLoop dict num s i fuel = .ok (some phrase) →
      ∃ ws, ws.length = num ∧ (∀ w ∈ ws, ∃ key, isDiceKey key ∧ dict key = some w) ∧
        phrase = String.intercalate " " ws ∧ 20 ≤ phrase.length ∧ phrase.length ≤ 50 := by
  intro fuel
  induction fuel with
  | zero =>
    intro i phrase h
    simp only [diceLoop, Except.ok.injEq] at h
    exact Option.noConfusion h
  | succ n ih =>
    intro i phrase h
    cases hr : rollWords dict s i num with
    | none =>
      simp only [diceLoop, hr] at h
      exact Except.noConfusion h
    | some ws =>
      by_cases hlen : 20 ≤ (String.intercalate " " ws).length ∧
          (String.intercalate " " ws).length ≤ 50
      · simp only [diceLoop, hr, if_pos hlen, Except.ok.injEq, Option.some.injEq] at h
        subst h
        obtain ⟨hl, hm⟩ := rollWords_some dict s num i ws hr
        exact ⟨ws, hl, hm, rfl, hlen.1, hlen.2⟩
      · simp only [diceLoop, hr, if_neg hlen] at h
        exact ih _ _ h

/-- Claim C4: for every integer `w` in `[4,12]` and a word list mapping
every 5-digit key over `1`-`6` to a word, an accepted result of
`create_dice_passphrase` consists of exactly `w` dictionary words joined
by single spaces, with total character length in `[20,50]` inclusive. -/
theorem C4_passphrase_shape (w : Int) (dict : String → Option String) (s : Nat → Nat)
    (fuel : Nat) (phrase : String) (h4 : 4 ≤ w) (h12 : w ≤ 12)
    (hok : create_dice_passphrase (.int w) (some dict) s fuel = .ok (some phrase)) :
    ∃ ws : List String, ws.length = w.toNat ∧
      (∀ x ∈ ws, ∃ key, isDiceKey key ∧ dict key = some x) ∧
      phrase = String.intercalate " " ws ∧ 20 ≤ phrase.length ∧ phrase.length ≤ 50 := by
  simp only [create_dice_passphrase] at hok
  rw [if_neg (by omega), if_neg (by omega)] at hok
  exact diceLoop_ok_some dict w.toNat s fuel 0 phrase hok

/-- Witness for C4 at `w = 4` with a word list sending every key to a
5-character word, on the all-zero stream, fuel 1. -/
theorem C4_witness :
    ∃ ws : List String, ws.length = (4 : Int).toNat ∧
      (∀ x ∈ ws, ∃ key, isDiceKey key ∧ appleDict key = some x) ∧
      "apple apple apple apple" = String.intercalate " " ws ∧
      20 ≤ "apple apple apple apple".length ∧ "apple apple apple apple".length ≤ 50 :=
  C4_passphrase_shape 4 appleDict szero 1 "apple apple apple apple"
    (by decide) (by decide) (by rfl)

theorem cdp_int_unfold (n : Int) (dict : String → Option String) (s : Nat → Nat) (fuel : Nat)
    (h1 : ¬ n < 4) (h2 : ¬ 12 < n) :
    create_dice_passphrase (.int n) (some dict) s fuel = diceLoop dict n.toNat s 0 fuel := by
  simp only [create_dice_passphrase]
  rw [if_neg h1, if_neg h2]

set_option maxRecDepth 8000 in
theorem diceLoop_badDict (s : Nat → Nat) : ∀ fuel i, diceLoop badDict 4 s i fuel = .ok none := by
  intro fuel
  induction fuel with
  | zero => intro i; rfl
  | succ n ih =>
    intro i
    have hr : rollWords badDict s i 4 = some [longWord, longWord, longWord, longWord] := rfl
    simp only [diceLoop, hr]
    rw [if_neg (by decide)]
    exact ih _

/-- Counterexample to claim C5: the retry loop of
`create_dice_passphrase` has no retry cap and no `GenerationExhausted`
failure — on the word list sending every key to a 60-character word,
after 10,001 candidate phrases (every one rejected by the `[20,50]`
length check) the function has neither returned nor failed; the code is
still inside `while True`. -/
theorem C5_counterexample :
    create_dice_passphrase (.int 4) (some badDict) szero 10001 = .ok none := by
  rw [cdp_int_unfold 4 badDict szero 10001 (by decide) (by decide),
    show (4 : Int).toNat = 4 from rfl]
  exact diceLoop_badDict szero 10001 0

/-- Claim C5 (amended): the retry loop of `create_dice_passphrase` is
unbounded — the code imposes no retry cap and has no
`GenerationExhausted` error, so on a word list whose candidate phrases
never land in `[20,50]` the loop runs forever: for every fuel bound the
fuelled model reports the loop still running. -/
theorem C5_amended_no_retry_cap (s : Nat → Nat) (fuel : Nat) :
    create_dice_passphrase (.int 4) (some badDict) s fuel = .ok none := by
  rw [cdp_int_unfold 4 badDict s fuel (by decide) (by decide),
    show (4 : Int).toNat = 4 from rfl]
  exact diceLoop_badDict s fuel 0

/-- Counterexample to claim C6: the CLI dispatcher never sets a
non-zero exit code — invoked with `--number 3 --dice` it prints the
too-low message and exits 0 (the claim requires exit code 1), and
invoked with `--dice` and the word list absent it prints the
file-not-found message and exits 0 (the claim requires exit code 2). -/
theorem C6_counterexample :
    mainCli ⟨some 3, false, true⟩ none szero 1 = some (msgDiceTooLow, 0) ∧
    mainCli ⟨none, false, true⟩ none szero 1 = some (msgFileNotFound, 0) :=
  ⟨rfl, rfl⟩

/-- Claim C6 (amended): the CLI dispatcher maps each outcome to a
distinct human-readable message, but the process exit code is 0 for
every terminating invocation — `main` never calls `sys.exit` and
catches every exception, so bad input and a missing word list are
distinguished only by the printed message, not at the process-exit
level. -/
theorem C6_amended_exit_always_zero (args : Args)
    (wordfile : Option (String → Option String)) (s : Nat → Nat) (fuel : Nat)
    (r : String × Nat) (h : mainCli args wordfile s fuel = some r) : r.2 = 0 := by
  unfold mainCli at h
  split at h <;> split at h <;>
    first
      | exact Option.noConfusion h
      | (injection h with h2; subst h2; rfl)

/-- Witness for C6 (amended) at the too-low invocation. -/
theorem C6_witness : ((msgDiceTooLow, 0) : String × Nat).2 = 0 :=
  C6_amended_exit_always_zero ⟨some 3, false, true⟩ none szero 1 (msgDiceTooLow, 0) (by rfl)

/-- Claim C7: both generators validate their numeric input with
distinguished typed failures — `create_password` raises
`NotIntegerError` on a non-integer, `NumberTooLowError` below 7 and
`NumberTooHighError` above 64; `create_dice_passphrase` raises
`NotIntegerError` on a non-integer, `NumberTooLowError` below 4 and
`NumberTooHighError` above 12. -/
theorem C7_input_validation (t : String) (n : Int) (special : Bool) (s : Nat → Nat)
    (wordfile : Option (String → Option String)) (fuel : Nat) :
    create_password (.str t) special s = .error .notInteger ∧
    (n < 7 → create_password (.int n) special s = .error .numberTooLow) ∧
    (64 < n → create_password (.int n) special s = .error .numberTooHigh) ∧
    create_dice_passphrase (.str t) wordfile s fuel = .error .notInteger ∧
    (n < 4 → create_dice_passphrase (.int n) wordfile s fuel = .error .numberTooLow) ∧
    (12 < n → create_dice_passphrase (.int n) wordfile s fuel = .error .numberTooHigh) := by
  refine ⟨rfl, ?_, ?_, rfl, ?_, ?_⟩
  · intro h
    simp only [create_password]
    rw [if_pos h]
  · intro h
    simp only [create_password]
    rw [if_neg (by omega), if_pos (by omega)]
  · intro h
    simp only [create_dice_passphrase]
    rw [if_pos h]
  · intro h
    simp only [create_dice_passphrase]
    rw [if_neg (by omega), if_pos (by omega)]

/-- Witness for C7 at the concrete inputs of the unit tests:
`'Dave'`, 6, 65, 3 and 13. -/
theorem C7_witness :
    create_password (.str "Dave") false szero = .error .notInteger ∧
    create_password (.int 6) false szero = .error .numberTooLow ∧
    create_password (.int 65) false szero = .error .numberTooHigh ∧
    create_dice_passphrase (.str "Dave") none szero 0 = .error .notInteger ∧
    create_dice_passphrase (.int 3) none szero 0 = .error .numberTooLow ∧
    create_dice_passphrase (.int 13) none szero 0 = .error .numberTooHigh := by
  have h6 := C7_input_validation "Dave" 6 false szero none 0
  have h65 := C7_input_validation "Dave" 65 false szero none 0
  have h3 := C7_input_validation "Dave" 3 false szero none 0
  have h13 := C7_input_validation "Dave" 13 false szero none 0
  exact ⟨h6.1, h6.2.1 (by decide), h65.2.2.1 (by decide), h6.2.2.2.1,
    h3.2.2.2.2.1 (by decide), h13.2.2.2.2.2 (by decide)⟩

/-- Claim C9: input validation in `create_dice_passphrase` precedes the
word-list load — on every non-integer or out-of-range `word_count` the
function fails with the input error (`NotIntegerError`,
`NumberTooLowError` or `NumberTooHighError`, never
`FileNotFoundError`), and the result is the same whether or not the
word-list file is present. -/
theorem C9_validation_precedes_load (v : PyVal) (s : Nat → Nat) (fuel : Nat)
    (wordfile : Option (String → Option String))
    (hbad : ∀ n : Int, v = .int n → n < 4 ∨ 12 < n) :
    ∃ e, create_dice_passphrase v wordfile s fuel = .error e ∧ e ≠ .fileNotFound ∧
      create_dice_passphrase v none s fuel = .error e := by
  cases v with
  | str t => exact ⟨.notInteger, rfl, by decide, rfl⟩
  | int n =>
    rcases hbad n rfl with h | h
    · refine ⟨.numberTooLow, ?_, by decide, ?_⟩ <;>
        (simp only [create_dice_passphrase]; rw [if_pos h])
    · refine ⟨.numberTooHigh, ?_, by decide, ?_⟩ <;>
        (simp only [create_dice_passphrase]; rw [if_neg (by omega), if_pos (by omega)])

/-- Witness for C9 at `word_count = 3` with the word-list file absent
and present. -/
theorem C9_witness :
    ∃ e, create_dice_passphrase (.int 3) (some badDict) szero 5 = .error e ∧
      e ≠ .fileNotFound ∧ create_dice_passphrase (.int 3) none szero 5 = .error e :=
  C9_validation_precedes_load (.int 3) szero 5 (some badDict)
    (by rintro n hn; injection hn with h; omega)

theorem diceLoop_no_range_error (dict : String → Option String) (num : Nat) (s : Nat → Nat) :
    ∀ fuel i e, diceLoop dict num s i fuel = .error e → e = .keyError := by
  intro fuel
  induction fuel with
  | zero =>
    intro i e h
    exact Except.noConfusion h
  | succ n ih =>
    intro i e h
    cases hr : rollWords dict s i num with
    | none =>
      simp only [diceLoop, hr, Except.error.injEq] at h
      exact h.symm
    | some ws =>
      by_cases hlen : 20 ≤ (String.intercalate " " ws).length ∧
          (String.intercalate " " ws).length ≤ 50
      · simp only [diceLoop, hr, if_pos hlen] at h
        exact Except.noConfusion h
      · simp only [diceLoop, hr, if_neg hlen] at h
        exact ih _ _ h

/-- Claim C10: a CLI invocation with `--number 0` is dispatched as if
`--number` were not given (`if args.number:` is falsy at 0): the result
is identical to the no-`--number` invocation in both modes; in password
mode the default of 10 characters is generated successfully, and in
passphrase mode the default word count 8 never produces an out-of-range
failure. -/
theorem C10_number_zero_uses_default (dice special : Bool)
    (wordfile : Option (String → Option String)) (s : Nat → Nat) (fuel : Nat) :
    mainCli ⟨some 0, special, dice⟩ wordfile s fuel =
      mainCli ⟨none, special, dice⟩ wordfile s fuel ∧
    (∃ pw, create_password (.int 10) special s = .ok pw ∧ pw.length = 10 ∧
      mainCli ⟨some 0, special, false⟩ wordfile s fuel = some (codesToString pw, 0)) ∧
    (∀ e, create_dice_passphrase (.int 8) wordfile s fuel = .error e →
      e ≠ .numberTooLow ∧ e ≠ .numberTooHigh) := by
  refine ⟨rfl, ?_, ?_⟩
  · obtain ⟨pw, hok, hlen⟩ := cp_ok_length 10 special s (by decide) (by decide)
    refine ⟨pw, hok, hlen, ?_⟩
    have hmain : mainCli ⟨some 0, special, false⟩ wordfile s fuel =
        match create_password (.int 10) special s with
        | .ok pw => some (codesToString pw, 0)
        | .error .notInteger => some (msgPassNotInteger, 0)
        | .error .numberTooLow => some (msgPassTooLow, 0)
        | .error .numberTooHigh => some (msgPassTooHigh, 0)
        | .error .fileNotFound => some (msgPassFailed, 0)
        | .error .keyError => some (msgPassFailed, 0) := rfl
    rw [hmain, hok]
  · intro e he
    cases wordfile with
    | none =>
      have h2 : create_dice_passphrase (.int 8) none s fuel = .error .fileNotFound := rfl
      rw [h2] at he
      injection he with h3
      subst h3
      exact ⟨by decide, by decide⟩
    | some dict =>
      rw [cdp_int_unfold 8 dict s fuel (by decide) (by decide)] at he
      have h3 := diceLoop_no_range_error dict (8 : Int).toNat s fuel 0 e he
      subst h3
      exact ⟨by decide, by decide⟩

/-- Witness for C10 in password mode on the all-zero stream. -/
theorem C10_witness :
    mainCli ⟨some 0, false, false⟩ none szero 0 = mainCli ⟨none, false, false⟩ none szero 0 :=
  (C10_number_zero_uses_default false false none szero 0).1
